import Mathlib

/-!
Shallow embedding of `src/quadruped/demo.py`: a demonstration script that
connects to a physics backend, sets gravity, loads a quadruped robot and a
ground plane, and then runs a drive loop of 10000 iterations.  Each iteration
steps the simulation, (on the first iteration only) fetches and prints the
full observation, samples a uniformly random 8-component action vector,
applies it, prints the base position and the motor angles, and sleeps 1/240 s.

The loop's visible behaviour is modelled as a trace of events; the numeric
action sampling is modelled over the real numbers; a fallible-backend run
model captures the absence of error handling; a small state machine tracks
the gravity vector.
-/

open Real

namespace Quadruped

/-- One observable operation of the script, in program order.  Backend calls,
sampling, logging (print) and the pacing sleep each get their own event.
`getBaseOrientation` is the proxy getter that appears only in a commented-out
line of the source. -/
inductive Event where
  | connect
  | setGravity (g : ℚ × ℚ × ℚ)
  | loadRobot
  | loadPlane
  | step
  | getObservation
  | logObservation
  | sampleAction
  | applyAction
  | getBaseOrientation
  | getBasePosition
  | logBasePosition
  | getMotorAngles
  | logMotorAngles
  | sleep (d : ℚ)
deriving DecidableEq, Repr

/-- The straight-line setup code before the loop (lines 7-10 of demo.py):
connect, `setGravity(0,0,-10)`, construct the Minitaur proxy, load the plane. -/
def setupEvents : List Event :=
  [.connect, .setGravity (0, 0, -10), .loadRobot, .loadPlane]

/-- The body of the drive loop at iteration `i` (lines 13-25 of demo.py), as
the ordered list of events it performs: `stepSimulation`; on `i == 0` only,
`GetObservation` and its print; sampling of `random_actions`; `ApplyAction`;
`GetBasePosition` and its print; `GetMotorAngles` and its print;
`time.sleep(1/240)`. -/
def iterationEvents (i : ℕ) : List Event :=
  [.step]
    ++ (if i = 0 then [.getObservation, .logObservation] else [])
    ++ [.sampleAction, .applyAction,
        .getBasePosition, .logBasePosition,
        .getMotorAngles, .logMotorAngles,
        .sleep (1/240)]

/-- The full event trace of the drive loop `for i in range(10000)`. -/
def driveTrace : List Event := (List.range 10000).flatMap iterationEvents

/-- The per-step action sampling of demo.py lines 17-18, over the reals:
`random_actions = np.random.rand(8) * math.pi / 4` followed by
`random_actions += np.ones(8) * math.pi * 3 / 8`.  The 8 uniform draws are
abstracted as the argument `u`. -/
noncomputable def random_actions (u : Fin 8 → ℝ) : Fin 8 → ℝ :=
  fun i => u i * π / 4 + π * 3 / 8

/-- The sampled action vector as the ordered 8-element sequence handed to
`minitaur.ApplyAction`. -/
noncomputable def random_actions_list (u : Fin 8 → ℝ) : List ℝ :=
  List.ofFn (random_actions u)

/-- Modelled from the spec: the `Minitaur` robot proxy is imported by demo.py
but its module is not part of the source excerpt.  Per the spec, an
observation snapshot has a base position (3-vector), a base orientation
(quaternion), and an ordered sequence of 8 motor angles. -/
structure RobotState where
  base_position : ℝ × ℝ × ℝ
  base_orientation : ℝ × ℝ × ℝ × ℝ
  motor_angles : Fin 8 → ℝ

/-- Modelled from the spec: `get_motor_angles() -> ordered sequence of 8
floats` on the robot proxy, whose implementation is outside the source
excerpt. -/
noncomputable def GetMotorAngles (s : RobotState) : List ℝ :=
  List.ofFn s.motor_angles

/-- The concrete uniform-draw vector of the spec's worked example: first
component 0.1, second component 0.9 (the remaining components are not
constrained by the example; they are set to 0.9 as well). -/
noncomputable def exampleDraw : Fin 8 → ℝ :=
  fun i => if i = 0 then 1/10 else 9/10

/-- The backend-global state the script manipulates directly: the gravity
vector (set by `p.setGravity`) and a counter of completed simulation steps.
All remaining physics state lives in the external backend. -/
structure SimState where
  gravity : ℚ × ℚ × ℚ
  stepsDone : ℕ
deriving DecidableEq, Repr

/-- Effect of one event on the script-visible backend state: `setGravity`
overwrites the gravity vector, `step` advances the step counter, every other
operation reads state or performs I/O and leaves it unchanged. -/
def eventEffect (s : SimState) (e : Event) : SimState :=
  match e with
  | .setGravity g => { s with gravity := g }
  | .step => { s with stepsDone := s.stepsDone + 1 }
  | _ => s

/-- Run a trace of events from a starting state. -/
def execTrace (l : List Event) (s : SimState) : SimState :=
  l.foldl eventEffect s

/-- The backend calls issued by iteration `i` of the loop, in order: the
simulation step, the observation getter (iteration 0 only), the action
setter, and the two per-iteration observation getters.  Sampling, printing
and sleeping are local and cannot raise a backend error. -/
def backendCalls (i : ℕ) : List Event :=
  [.step]
    ++ (if i = 0 then [.getObservation] else [])
    ++ [.applyAction, .getBasePosition, .getMotorAngles]

/-- Whether iteration `i` completes without a backend error, given an oracle
`ok` saying which backend call succeeds at which iteration. -/
def iterOk (ok : ℕ → Event → Bool) (i : ℕ) : Bool :=
  (backendCalls i).all (ok i)

/-- Run the first `n` iterations of the drive loop against a fallible
backend.  The script has no try/except, so an uncaught error stops the loop:
an iteration is attempted only while every earlier iteration succeeded, and
the returned flag records whether all attempted iterations succeeded.
Returns the list of attempted iteration indices and that flag. -/
def runUpTo (ok : ℕ → Event → Bool) : ℕ → List ℕ × Bool
  | 0 => ([], true)
  | n + 1 =>
    match runUpTo ok n with
    | (l, true) => (l ++ [n], iterOk ok n)
    | (l, false) => (l, false)

/-- The whole drive loop, `for i in range(10000)`, against a fallible
backend. -/
def runDrive (ok : ℕ → Event → Bool) : List ℕ × Bool :=
  runUpTo ok 10000

/-- Event count of the loop body, first iteration. -/
theorem iterationEvents_zero :
    iterationEvents 0 =
      [.step, .getObservation, .logObservation, .sampleAction, .applyAction,
       .getBasePosition, .logBasePosition, .getMotorAngles, .logMotorAngles,
       .sleep (1/240)] := by
  simp [iterationEvents]

/-- Event list of the loop body on every later iteration. -/
theorem iterationEvents_pos (i : ℕ) (h : i ≠ 0) :
    iterationEvents i =
      [.step, .sampleAction, .applyAction,
       .getBasePosition, .logBasePosition, .getMotorAngles, .logMotorAngles,
       .sleep (1/240)] := by
  simp [iterationEvents, h]

/-- Counting an event over the concatenated loop trace when every iteration
contributes the same count. -/
theorem count_bind_const (e : Event) (k : ℕ)
    (h : ∀ i, (iterationEvents i).count e = k) (n : ℕ) :
    ((List.range n).flatMap iterationEvents).count e = n * k := by
  induction n with
  | zero => simp
  | succ m ih =>
      rw [List.range_succ, List.flatMap_append, List.count_append, ih]
      simp only [List.flatMap_cons, List.flatMap_nil, List.append_nil, h m]
      ring

/-- Counting an event over the concatenated loop trace when only iteration 0
contributes (once). -/
theorem count_bind_first (e : Event)
    (h : ∀ i, (iterationEvents i).count e = if i = 0 then 1 else 0)
    (n : ℕ) (hn : 0 < n) :
    ((List.range n).flatMap iterationEvents).count e = 1 := by
  induction n with
  | zero => exact absurd hn (by simp)
  | succ m ih =>
      rw [List.range_succ, List.flatMap_append, List.count_append]
      simp only [List.flatMap_cons, List.flatMap_nil, List.append_nil]
      rcases Nat.eq_zero_or_pos m with hm | hm
      · subst hm
        simpa using h 0
      · rw [ih hm, h m]
        simp [Nat.pos_iff_ne_zero.mp hm]

/-- Every iteration performs exactly one `stepSimulation` call. -/
theorem iter_count_step (i : ℕ) : (iterationEvents i).count .step = 1 := by
  rcases Nat.eq_zero_or_pos i with h | h
  · subst h; decide
  · rw [iterationEvents_pos i (Nat.pos_iff_ne_zero.mp h)]; decide

/-- Every iteration fetches the base position exactly once. -/
theorem iter_count_getBasePosition (i : ℕ) :
    (iterationEvents i).count .getBasePosition = 1 := by
  rcases Nat.eq_zero_or_pos i with h | h
  · subst h; decide
  · rw [iterationEvents_pos i (Nat.pos_iff_ne_zero.mp h)]; decide

/-- Every iteration logs the base position exactly once. -/
theorem iter_count_logBasePosition (i : ℕ) :
    (iterationEvents i).count .logBasePosition = 1 := by
  rcases Nat.eq_zero_or_pos i with h | h
  · subst h; decide
  · rw [iterationEvents_pos i (Nat.pos_iff_ne_zero.mp h)]; decide

/-- Every iteration fetches the motor angles exactly once. -/
theorem iter_count_getMotorAngles (i : ℕ) :
    (iterationEvents i).count .getMotorAngles = 1 := by
  rcases Nat.eq_zero_or_pos i with h | h
  · subst h; decide
  · rw [iterationEvents_pos i (Nat.pos_iff_ne_zero.mp h)]; decide

/-- Every iteration logs the motor angles exactly once. -/
theorem iter_count_logMotorAngles (i : ℕ) :
    (iterationEvents i).count .logMotorAngles = 1 := by
  rcases Nat.eq_zero_or_pos i with h | h
  · subst h; decide
  · rw [iterationEvents_pos i (Nat.pos_iff_ne_zero.mp h)]; decide

/-- The full observation is fetched exactly on iteration 0. -/
theorem iter_count_getObservation (i : ℕ) :
    (iterationEvents i).count .getObservation = if i = 0 then 1 else 0 := by
  rcases Nat.eq_zero_or_pos i with h | h
  · subst h; decide
  · have h0 := Nat.pos_iff_ne_zero.mp h
    rw [iterationEvents_pos i h0, if_neg h0]; decide

/-- The full observation is logged exactly on iteration 0. -/
theorem iter_count_logObservation (i : ℕ) :
    (iterationEvents i).count .logObservation = if i = 0 then 1 else 0 := by
  rcases Nat.eq_zero_or_pos i with h | h
  · subst h; decide
  · have h0 := Nat.pos_iff_ne_zero.mp h
    rw [iterationEvents_pos i h0, if_neg h0]; decide

/-- No iteration fetches the base orientation (the call is commented out in
the source). -/
theorem iter_count_getBaseOrientation (i : ℕ) :
    (iterationEvents i).count .getBaseOrientation = 0 := by
  rcases Nat.eq_zero_or_pos i with h | h
  · subst h; decide
  · rw [iterationEvents_pos i (Nat.pos_iff_ne_zero.mp h)]; decide

/-- While no backend error occurs, the loop just runs every iteration. -/
theorem runUpTo_ok (ok : ℕ → Event → Bool) (m : ℕ)
    (h : ∀ j, j < m → iterOk ok j = true) :
    runUpTo ok m = (List.range m, true) := by
  induction m with
  | zero => rfl
  | succ n ih =>
      rw [runUpTo, ih (fun j hj => h j (Nat.lt_succ_of_lt hj)),
        h n (Nat.lt_succ_self n), List.range_succ]

/-- Once the first backend error has occurred, no later iteration runs. -/
theorem runUpTo_after_failure (ok : ℕ → Event → Bool) (k : ℕ)
    (hfail : iterOk ok k = false) (hok : ∀ j, j < k → iterOk ok j = true) :
    ∀ n, k < n → runUpTo ok n = (List.range (k + 1), false) := by
  intro n
  induction n with
  | zero => intro h; exact absurd h (Nat.not_lt_zero k)
  | succ m ih =>
      intro hkm
      rcases Nat.lt_succ_iff_lt_or_eq.mp hkm with h | h
      · rw [runUpTo, ih h]
      · subst h
        rw [runUpTo, runUpTo_ok ok k hok, hfail, List.range_succ]

/-- C2: with a backend that never fails, the drive loop attempts exactly the
10000 iterations `0, …, 9999` and then terminates normally; each iteration
performs exactly one simulation-step call, so the whole run performs exactly
10000 step calls. -/
theorem drive_loop_steps :
    runDrive (fun _ _ => true) = (List.range 10000, true) ∧
    (List.range 10000).length = 10000 ∧
    (∀ i : ℕ, (iterationEvents i).count .step = 1) ∧
    driveTrace.count .step = 10000 := by
  refine ⟨runUpTo_ok _ 10000 (fun j _ => by simp [iterOk]), by simp,
    iter_count_step, ?_⟩
  have h := count_bind_const .step 1 iter_count_step 10000
  simpa [driveTrace] using h

/-- C3: within each iteration the events occur in source order: step; on the
first iteration only, fetch then log the full observation; sample the random
action; apply it; fetch then log the base position; fetch then log the motor
angles; sleep for 1/240 s. -/
theorem iteration_operation_order : ∀ i : ℕ,
    iterationEvents i =
      if i = 0 then
        [.step, .getObservation, .logObservation, .sampleAction, .applyAction,
         .getBasePosition, .logBasePosition, .getMotorAngles, .logMotorAngles,
         .sleep (1/240)]
      else
        [.step, .sampleAction, .applyAction,
         .getBasePosition, .logBasePosition, .getMotorAngles, .logMotorAngles,
         .sleep (1/240)] := by
  intro i
  rcases Nat.eq_zero_or_pos i with h | h
  · subst h; rw [if_pos rfl]; exact iterationEvents_zero
  · have h0 := Nat.pos_iff_ne_zero.mp h
    rw [if_neg h0]; exact iterationEvents_pos i h0

/-- C4: over the whole run the full observation is fetched and logged exactly
once, namely on the iteration with index 0, and on no other iteration. -/
theorem observation_fetched_once :
    (∀ i : ℕ,
      (iterationEvents i).count .getObservation = if i = 0 then 1 else 0) ∧
    (∀ i : ℕ,
      (iterationEvents i).count .logObservation = if i = 0 then 1 else 0) ∧
    driveTrace.count .getObservation = 1 ∧
    driveTrace.count .logObservation = 1 := by
  refine ⟨iter_count_getObservation, iter_count_logObservation, ?_, ?_⟩
  · have h := count_bind_first .getObservation iter_count_getObservation
      10000 (by norm_num)
    simpa [driveTrace] using h
  · have h := count_bind_first .logObservation iter_count_logObservation
      10000 (by norm_num)
    simpa [driveTrace] using h

/-- C7: every iteration, including the first, fetches and logs the base
position exactly once and the motor angles exactly once; over the run that is
10000 base-position log lines and 10000 motor-angle log lines. -/
theorem position_and_angles_logged_each_iteration :
    (∀ i : ℕ,
      (iterationEvents i).count .getBasePosition = 1 ∧
      (iterationEvents i).count .logBasePosition = 1 ∧
      (iterationEvents i).count .getMotorAngles = 1 ∧
      (iterationEvents i).count .logMotorAngles = 1) ∧
    driveTrace.count .logBasePosition = 10000 ∧
    driveTrace.count .logMotorAngles = 10000 := by
  refine ⟨fun i => ⟨iter_count_getBasePosition i, iter_count_logBasePosition i,
    iter_count_getMotorAngles i, iter_count_logMotorAngles i⟩, ?_, ?_⟩
  · have h := count_bind_const .logBasePosition 1 iter_count_logBasePosition 10000
    simpa [driveTrace] using h
  · have h := count_bind_const .logMotorAngles 1 iter_count_logMotorAngles 10000
    simpa [driveTrace] using h

/-- C10: the drive loop never invokes the base-orientation getter: it occurs
in no iteration's event list and zero times in the whole trace. -/
theorem base_orientation_never_fetched :
    (∀ i : ℕ, Event.getBaseOrientation ∉ iterationEvents i) ∧
    driveTrace.count .getBaseOrientation = 0 := by
  constructor
  · intro i hmem
    have h := iter_count_getBaseOrientation i
    rw [List.count_eq_zero] at h
    exact h hmem
  · have h := count_bind_const .getBaseOrientation 0
      iter_count_getBaseOrientation 10000
    simpa [driveTrace] using h

/-- C1: when each uniform draw lies in [0,1) — the range of
`np.random.rand` — every component of the sampled action vector lies in the
half-open interval [3π/8, 3π/8 + π/4). -/
theorem action_components_in_range (u : Fin 8 → ℝ)
    (h : ∀ i, 0 ≤ u i ∧ u i < 1) (i : Fin 8) :
    π * 3 / 8 ≤ random_actions u i ∧
      random_actions u i < π * 3 / 8 + π / 4 := by
  have hpi : (0:ℝ) < π := Real.pi_pos
  obtain ⟨h0, h1⟩ := h i
  unfold random_actions
  constructor
  · nlinarith
  · nlinarith

/-- Witness for C1 at the concrete draw vector that is 1/2 everywhere. -/
theorem action_components_in_range_witness :
    π * 3 / 8 ≤ random_actions (fun _ => 1/2) 0 ∧
      random_actions (fun _ => 1/2) 0 < π * 3 / 8 + π / 4 :=
  action_components_in_range (fun _ => 1/2) (fun _ => by norm_num) 0

/-- C5 counterexample: on draws with first two components 0.1 and 0.9, the
second action component is 0.9·π/4 + 3π/8 = 3π/5 ≈ 1.885, which differs from
the spec's stated value 1.963 by more than 1/20 — far beyond any
floating-point tolerance. -/
theorem spec_example_second_value_wrong :
    exampleDraw 0 = 1/10 ∧ exampleDraw 1 = 9/10 ∧
      |random_actions exampleDraw 1 - 1.963| > 1/20 := by
  refine ⟨by simp [exampleDraw], by simp [exampleDraw], ?_⟩
  have h1 : random_actions exampleDraw 1 = 9/10 * π / 4 + π * 3 / 8 := by
    simp [random_actions, exampleDraw]
  have hlt : π < 3.141593 := Real.pi_lt_d6
  have hgt : π > 3.141592 := Real.pi_gt_d6
  rw [h1, gt_iff_lt, lt_abs]
  right
  nlinarith

/-- C5 amended: on uniform draws whose first two components are 0.1 and 0.9,
the first two action components are 0.1·π/4 + 3π/8 ≈ 1.256 and
0.9·π/4 + 3π/8 ≈ 1.885 respectively. -/
theorem spec_example_first_components (u : Fin 8 → ℝ)
    (h0 : u 0 = 1/10) (h1 : u 1 = 9/10) :
    random_actions u 0 = 1/10 * π / 4 + π * 3 / 8 ∧
    |random_actions u 0 - 1.256| < 1/100 ∧
    random_actions u 1 = 9/10 * π / 4 + π * 3 / 8 ∧
    |random_actions u 1 - 1.885| < 1/100 := by
  have hlt : π < 3.141593 := Real.pi_lt_d6
  have hgt : π > 3.141592 := Real.pi_gt_d6
  refine ⟨by simp [random_actions, h0], ?_, by simp [random_actions, h1], ?_⟩
  · rw [abs_sub_lt_iff]
    unfold random_actions
    rw [h0]
    constructor <;> nlinarith
  · rw [abs_sub_lt_iff]
    unfold random_actions
    rw [h1]
    constructor <;> nlinarith

/-- Witness for the amended C5 at the concrete example draw vector. -/
theorem spec_example_first_components_witness :
    random_actions exampleDraw 0 = 1/10 * π / 4 + π * 3 / 8 ∧
    |random_actions exampleDraw 0 - 1.256| < 1/100 ∧
    random_actions exampleDraw 1 = 9/10 * π / 4 + π * 3 / 8 ∧
    |random_actions exampleDraw 1 - 1.885| < 1/100 :=
  spec_example_first_components exampleDraw
    (by simp [exampleDraw]) (by simp [exampleDraw])

/-- C6: the action vector handed to `ApplyAction` always has exactly 8
components, equal in length to the motor-angle observation sequence. -/
theorem action_vector_has_eight_components (u : Fin 8 → ℝ) (s : RobotState) :
    (random_actions_list u).length = 8 ∧
    (random_actions_list u).length = (GetMotorAngles s).length := by
  simp [random_actions_list, GetMotorAngles]

/-- A single loop iteration never touches the gravity vector. -/
theorem gravity_execTrace_iteration (i : ℕ) (s : SimState) :
    (execTrace (iterationEvents i) s).gravity = s.gravity := by
  rcases Nat.eq_zero_or_pos i with h | h
  · subst h
    rw [iterationEvents_zero]
    rfl
  · rw [iterationEvents_pos i (Nat.pos_iff_ne_zero.mp h)]
    rfl

/-- No iteration of the loop emits a `setGravity` call. -/
theorem iter_count_setGravity (i : ℕ) (g : ℚ × ℚ × ℚ) :
    (iterationEvents i).count (.setGravity g) = 0 := by
  rw [List.count_eq_zero]
  rcases Nat.eq_zero_or_pos i with h | h
  · subst h
    rw [iterationEvents_zero]
    simp
  · rw [iterationEvents_pos i (Nat.pos_iff_ne_zero.mp h)]
    simp

/-- C9: gravity is set exactly once, in the setup code before the loop, to
(0, 0, -10); no event of the drive loop is a `setGravity` call; and after the
setup followed by any number of loop iterations, from any starting state, the
gravity vector is (0, 0, -10). -/
theorem gravity_constant :
    setupEvents.count (.setGravity (0, 0, -10)) = 1 ∧
    (∀ g : ℚ × ℚ × ℚ, driveTrace.count (.setGravity g) = 0) ∧
    ∀ (s0 : SimState) (k : ℕ),
      (execTrace (setupEvents ++ (List.range k).flatMap iterationEvents)
        s0).gravity = (0, 0, -10) := by
  refine ⟨by decide, ?_, ?_⟩
  · intro g
    have h := count_bind_const (.setGravity g) 0
      (fun i => iter_count_setGravity i g) 10000
    simpa [driveTrace] using h
  · intro s0 k
    rw [execTrace, List.foldl_append]
    have hsetup : (execTrace setupEvents s0).gravity = (0, 0, -10) := rfl
    show (execTrace ((List.range k).flatMap iterationEvents)
      (execTrace setupEvents s0)).gravity = (0, 0, -10)
    induction k with
    | zero => simpa [execTrace] using hsetup
    | succ m ih =>
        rw [List.range_succ, List.flatMap_append, execTrace,
          List.foldl_append]
        simp only [List.flatMap_cons, List.flatMap_nil, List.append_nil]
        show (execTrace (iterationEvents m)
          (execTrace ((List.range m).flatMap iterationEvents)
            (execTrace setupEvents s0))).gravity = (0, 0, -10)
        rw [gravity_execTrace_iteration]
        exact ih

/-- C8: the loop performs no error recovery.  If the backend first fails
during iteration `k` (with `k < 10000`), the error propagates: exactly the
iterations `0, …, k` are attempted, none after `k` runs, and the run
terminates in the error state. -/
theorem backend_failure_stops_loop (ok : ℕ → Event → Bool) (k : ℕ)
    (hk : k < 10000) (hfail : iterOk ok k = false)
    (hok : ∀ j, j < k → iterOk ok j = true) :
    runDrive ok = (List.range (k + 1), false) :=
  runUpTo_after_failure ok k hfail hok 10000 hk

/-- Witness for C8: a backend that fails exactly at iteration 2 stops the
loop after attempting iterations 0, 1 and 2, with the error propagated. -/
theorem backend_failure_stops_loop_witness :
    runDrive (fun i _ => i != 2) = (List.range 3, false) :=
  backend_failure_stops_loop (fun i _ => i != 2) 2 (by norm_num)
    (by decide) (by decide)

end Quadruped
